import Mathlib

/-!
Verification development for the `simple_dca_strategy` repository
(`strategy.py` and `eops_exchange.py`): a shallow embedding of the
pipeline components (stream ingester, DCA decider, executor) and of the
exchange client (request signer, market-order placement), together with
theorems settling the specification's claims about them.

Python values are modelled by the inductive `PyVal`; Python exceptions by
`PyErr` together with `Except`; network and scheduler nondeterminism is
passed in explicitly (a `PostOutcome` for one REST call, oracle functions
for the WebSocket loop).
-/

/-- Model of the Python values that flow through the strategy: `None`,
strings, ints, (binary) floats, bools, lists and dicts. A float carries
the decimal literal it was written as in the source or configuration;
no float arithmetic occurs anywhere in this code base. -/
inductive PyVal where
  | none
  | str (s : String)
  | int (n : Int)
  | float (lit : String)
  | bool (b : Bool)
  | list (xs : List PyVal)
  | dict (fields : List (String × PyVal))

/-- Kinds of `requests.RequestException` that the exchange client can see:
a transport-level failure of the POST/GET, an HTTP error status raised by
`raise_for_status`, or a JSON decode failure from `response.json()`
(a `RequestException` subclass in the `requests` version in use). -/
inductive ReqExcKind where
  | transport
  | httpStatus (code : Nat)
  | jsonDecode

/-- Python exceptions that the modelled code can raise. Every constructor
corresponds to an `Exception` subclass, so a bare `except Exception`
handler catches all of them. -/
inductive PyErr where
  | zeroDivision
  | typeErr
  | keyErr (k : String)
  | attrErr (a : String)
  | valueErr (msg : String)
  | jsonDecodeErr
  | requestExc (k : ReqExcKind)

/-- Python `dict.get(key)`: the first binding for `key`, else `None`.
(A Python dict holds at most one binding per key.) -/
def pyDictGet (fs : List (String × PyVal)) (k : String) : PyVal :=
  match fs.find? (fun kv => kv.1 == k) with
  | some kv => kv.2
  | Option.none => .none

/-- Python `dict.get(key, default)`. -/
def pyDictGetD (fs : List (String × PyVal)) (k : String) (d : PyVal) : PyVal :=
  match fs.find? (fun kv => kv.1 == k) with
  | some kv => kv.2
  | Option.none => d

/-- Python `value.get(key)` on an arbitrary value: succeeds on a dict,
raises `AttributeError` on anything else (only dicts have `.get` here). -/
def pyDotGet (v : PyVal) (k : String) : Except PyErr PyVal :=
  match v with
  | .dict fs => .ok (pyDictGet fs k)
  | _ => .error (.attrErr "get")

/-- Python truthiness, as used by `all([...])` in the source. For a float
the test is against the zero literals (no claim exercises float truthiness). -/
def truthy : PyVal → Bool
  | .none => false
  | .bool b => b
  | .int n => n != 0
  | .float lit => !(lit == "0.0" || lit == "0" || lit == "-0.0")
  | .str s => s != ""
  | .list xs => !xs.isEmpty
  | .dict fs => !fs.isEmpty

/-- Whether a value is a binary float. -/
def PyVal.isFloat : PyVal → Bool
  | .float _ => true
  | _ => false

/-- Python `str()` for the scalar values this code serializes. For a float,
CPython renders the shortest decimal string that round-trips the binary
value; for the literals appearing here that is the literal itself, which
is what the model returns (container `str()` is never exercised). -/
def pyStr : PyVal → String
  | .none => "None"
  | .str s => s
  | .int n => toString n
  | .float lit => lit
  | .bool b => if b then "True" else "False"
  | .list _ => "[...]"
  | .dict _ => "\x7b...\x7d"

/-- Python `str.upper()` (all inputs here are ASCII). -/
def pyUpper (s : String) : String := ⟨s.data.map Char.toUpper⟩

/-- Event kinds of the eops pipeline used by this strategy. -/
inductive EventType where
  | MARKET
  | ORDER
  | FILL

/-- An event on the bus: a kind and a data payload. -/
structure Event where
  etype : EventType
  data : PyVal

/-! ## SHA-256 and HMAC (model of `hashlib.sha256` / `hmac`)

Machine words are `Nat` reduced modulo `2^32` explicitly; byte strings are
`List Nat` with entries below 256. -/

/-- Truncation to a 32-bit word. -/
def w32 (n : Nat) : Nat := n % 4294967296

/-- Right rotation of a 32-bit word. -/
def rotr32 (n x : Nat) : Nat := w32 ((x >>> n) ||| (x <<< (32 - n)))

/-- Big-endian byte rendering of `v`, `n` bytes wide. -/
def beBytes : Nat → Nat → List Nat
  | 0, _ => []
  | n + 1, v => beBytes n (v / 256) ++ [v % 256]

/-- Big-endian word from a byte list. -/
def beWord (bs : List Nat) : Nat := bs.foldl (fun a b => a * 256 + b) 0

/-- The SHA-256 round constants (the standard table, written in
decimal). -/
def sha256K : List Nat :=
  [1116352408, 1899447441, 3049323471, 3921009573, 961987163, 1508970993,
   2453635748, 2870763221, 3624381080, 310598401, 607225278, 1426881987,
   1925078388, 2162078206, 2614888103, 3248222580, 3835390401, 4022224774,
   264347078, 604807628, 770255983, 1249150122, 1555081692, 1996064986,
   2554220882, 2821834349, 2952996808, 3210313671, 3336571891, 3584528711,
   113926993, 338241895, 666307205, 773529912, 1294757372, 1396182291,
   1695183700, 1986661051, 2177026350, 2456956037, 2730485921, 2820302411,
   3259730800, 3345764771, 3516065817, 3600352804, 4094571909, 275423344,
   430227734, 506948616, 659060556, 883997877, 958139571, 1322822218,
   1537002063, 1747873779, 1955562222, 2024104815, 2227730452, 2361852424,
   2428436474, 2756734187, 3204031479, 3329325298]

/-- The SHA-256 initial hash state (the standard eight words, written in
decimal). -/
def sha256H0 : List Nat :=
  [1779033703, 3144134277, 1013904242, 2773480762, 1359893119, 2600822924, 528734635, 1541459225]

/-- SHA-256 padding: append `0x80`, zeros to 56 mod 64, then the 64-bit
big-endian bit length. -/
def sha256Pad (msg : List Nat) : List Nat :=
  msg ++ [128] ++ List.replicate ((119 - msg.length % 64) % 64) 0 ++ beBytes 8 (msg.length * 8)

/-- SHA-256 sigma-0 message-schedule function. -/
def sSigma0 (x : Nat) : Nat := rotr32 7 x ^^^ rotr32 18 x ^^^ (x >>> 3)

/-- SHA-256 sigma-1 message-schedule function. -/
def sSigma1 (x : Nat) : Nat := rotr32 17 x ^^^ rotr32 19 x ^^^ (x >>> 10)

/-- SHA-256 big-Sigma-0 compression function. -/
def bSigma0 (x : Nat) : Nat := rotr32 2 x ^^^ rotr32 13 x ^^^ rotr32 22 x

/-- SHA-256 big-Sigma-1 compression function. -/
def bSigma1 (x : Nat) : Nat := rotr32 6 x ^^^ rotr32 11 x ^^^ rotr32 25 x

/-- Extend a 16-word message schedule to 64 words. -/
def extendW (ws : List Nat) : List Nat :=
  if _h : ws.length < 64 then
    extendW (ws ++ [w32 (sSigma1 (ws.getD (ws.length - 2) 0) + ws.getD (ws.length - 7) 0 +
                         sSigma0 (ws.getD (ws.length - 15) 0) + ws.getD (ws.length - 16) 0)])
  else ws
termination_by 64 - ws.length
decreasing_by simp only [List.length_append, List.length_cons, List.length_nil]; omega

/-- One SHA-256 round on the 8-word working state. -/
def sha256Round (st : List Nat) (k w : Nat) : List Nat :=
  match st with
  | [a, b, c, d, e, f, g, h] =>
    let t1 := w32 (h + bSigma1 e + ((e &&& f) ^^^ ((e ^^^ 4294967295) &&& g)) + k + w)
    let t2 := w32 (bSigma0 a + ((a &&& b) ^^^ (a &&& c) ^^^ (b &&& c)))
    [w32 (t1 + t2), a, b, c, w32 (d + t1), e, f, g]
  | other => other

/-- Compression of one 64-byte block into the hash state. -/
def sha256Compress (hs : List Nat) (block : List Nat) : List Nat :=
  let ws := extendW ((List.range 16).map (fun i => beWord ((block.drop (4 * i)).take 4)))
  let st := (sha256K.zip ws).foldl (fun s kw => sha256Round s kw.1 kw.2) hs
  (hs.zip st).map (fun p => w32 (p.1 + p.2))

/-- Fold the compression function over consecutive 64-byte blocks. -/
def sha256Blocks (hs : List Nat) (l : List Nat) : List Nat :=
  if _h : l.length < 64 then hs
  else sha256Blocks (sha256Compress hs (l.take 64)) (l.drop 64)
termination_by l.length
decreasing_by simp only [List.length_drop]; omega

/-- SHA-256 of a byte string, as 32 bytes. -/
def sha256 (msg : List Nat) : List Nat :=
  (sha256Blocks sha256H0 (sha256Pad msg)).flatMap (beBytes 4)

/-- HMAC-SHA256 (RFC 2104) of a message under a key, as 32 bytes. -/
def hmacSha256 (key msg : List Nat) : List Nat :=
  let k0 := if key.length > 64 then sha256 key else key
  let kp := k0 ++ List.replicate (64 - k0.length) 0
  sha256 ((kp.map (fun b => b ^^^ 92)) ++ sha256 ((kp.map (fun b => b ^^^ 54)) ++ msg))

/-- The sixteen lowercase hexadecimal digits. -/
def hexDigits : List Char := "0123456789abcdef".data

/-- Lowercase hex rendering of one byte. -/
def hexByte (b : Nat) : List Char := [hexDigits.getD (b / 16 % 16) '0', hexDigits.getD (b % 16) '0']

/-- Lowercase hex rendering of a byte string. -/
def hexOfBytes (bs : List Nat) : String := ⟨bs.flatMap hexByte⟩

/-- UTF-8 bytes of a string (model of Python `str.encode("utf-8")`). -/
def utf8Bytes (s : String) : List Nat := s.toUTF8.toList.map (fun b => b.toNat)

/-- Model of `hmac.new(key.encode(), msg.encode(), hashlib.sha256).hexdigest()`. -/
def hmacSha256HexDigest (key msg : String) : String :=
  hexOfBytes (hmacSha256 (utf8Bytes key) (utf8Bytes msg))

/-! ## Request signer and exchange client (`eops_exchange.py`) -/

/-- The canonical pre-hash string of `EopsLiveExchange._get_auth_headers`:
the Python f-string `f"{timestamp}{method.upper()}{path}{body_str}"`. -/
def prehashString (timestamp method path bodyStr : String) : String :=
  timestamp ++ pyUpper method ++ path ++ bodyStr

/-- The `X-API-SIGN` value computed by `_get_auth_headers`. -/
def signatureOf (secretKey timestamp method path bodyStr : String) : String :=
  hmacSha256HexDigest secretKey (prehashString timestamp method path bodyStr)

/-- The headers returned by `EopsLiveExchange._get_auth_headers`, with the
call-time timestamp `str(int(time.time()))` passed in explicitly. -/
def getAuthHeaders (secretKey apiKey : String) (method path bodyStr timestamp : String) :
    List (String × String) :=
  [("Content-Type", "application/json"),
   ("X-API-KEY", apiKey),
   ("X-API-TIMESTAMP", timestamp),
   ("X-API-SIGN", signatureOf secretKey timestamp method path bodyStr)]

/-- The Signer contract in the specification's words: an HMAC-SHA256 keyed
by the shared secret over the concatenation
`timestamp + method(uppercased) + path + bodyBytes`, rendered as a
lowercase hex digest. -/
def specSignature (secret method path body timestamp : String) : String :=
  hexOfBytes (hmacSha256 (utf8Bytes secret)
    (utf8Bytes (timestamp ++ pyUpper method ++ path ++ body)))

/-- The credential fields read by `EopsLiveExchange.__init__`. -/
structure ExchangeCfg where
  base_url : PyVal
  api_key : PyVal
  secret_key : PyVal

/-- Model of `EopsLiveExchange.__init__`: reads the three credentials and
raises `ValueError` unless all are truthy. -/
def EopsLiveExchange.init (params : List (String × PyVal)) : Except PyErr ExchangeCfg :=
  let b := pyDictGet params "base_url"
  let k := pyDictGet params "api_key"
  let s := pyDictGet params "secret_key"
  if truthy b && truthy k && truthy s then .ok ⟨b, k, s⟩
  else .error (.valueErr "base_url, api_key, and secret_key must be provided in EXCHANGE_PARAMS.")

/-- JSON escaping for string values (quotes and backslashes). -/
def jsonEscape (s : String) : String :=
  ⟨s.data.flatMap (fun c => if c = '"' ∨ c = '\\' then ['\\', c] else [c])⟩

/-- Model of `json.dumps` with default separators, preserving dict
insertion order as CPython does. -/
def jsonDumps : PyVal → String
  | .none => "null"
  | .bool b => if b then "true" else "false"
  | .int n => toString n
  | .float lit => lit
  | .str s => "\"" ++ jsonEscape s ++ "\""
  | .list xs => "[" ++ String.intercalate ", " (xs.attach.map (fun x => jsonDumps x.1)) ++ "]"
  | .dict fs => "\x7b" ++ String.intercalate ", "
      (fs.attach.map (fun kv => "\"" ++ jsonEscape kv.1.1 ++ "\": " ++ jsonDumps kv.1.2)) ++ "\x7d"
termination_by v => sizeOf v
decreasing_by
  · have h := List.sizeOf_lt_of_mem x.2
    simp only [PyVal.list.sizeOf_spec]
    omega
  · have h := List.sizeOf_lt_of_mem kv.2
    obtain ⟨⟨k, v⟩, hm⟩ := kv
    simp only [PyVal.dict.sizeOf_spec, Prod.mk.sizeOf_spec] at h ⊢
    omega

/-- The order body built by `create_market_order`; the quantity field is
`str(amount)` — a string on the wire. -/
def orderBody (symbol side amount : PyVal) : PyVal :=
  .dict [("instrument_id", symbol), ("side", side),
         ("order_type", .str "market"), ("quantity", .str (pyStr amount))]

/-- Outcome of the POST performed by `requests.Session.post`: a
transport-level `RequestException`, or an HTTP response carrying a status
code, the parsed JSON body when the body parses, and the raw text. -/
inductive PostOutcome where
  | transportError
  | response (status : Nat) (jsonBody : Option PyVal) (text : String)

/-- Model of `requests.Response.raise_for_status`: raises `HTTPError`
(a `RequestException`) exactly for status codes 400-599. -/
def raiseForStatus (status : Nat) : Except PyErr Unit :=
  if 400 ≤ status ∧ status < 600 then .error (.requestExc (.httpStatus status)) else .ok ()

/-- Model of `requests.Response.json()`: the parsed body, or a
`RequestException`-typed JSON decode error. -/
def responseJson (jsonBody : Option PyVal) : Except PyErr PyVal :=
  match jsonBody with
  | some v => .ok v
  | Option.none => .error (.requestExc .jsonDecode)

/-- The `try` block of `create_market_order`: POST, `raise_for_status`,
then `response.json()`. -/
def createMarketOrderTry (net : PostOutcome) : Except PyErr PyVal :=
  match net with
  | .transportError => .error (.requestExc .transport)
  | .response s j _ =>
    match raiseForStatus s with
    | .error e => .error e
    | .ok _ => responseJson j

/-- Model of `EopsLiveExchange.create_market_order`: builds the body,
signs it, POSTs, and converts any `requests.RequestException` into a
logged `{}` result (the `except` clause names only that class; an
exception of another class would propagate). -/
def createMarketOrder (secretKey apiKey : String) (symbol side amount : PyVal)
    (timestamp : String) (net : PostOutcome) : Except PyErr PyVal :=
  let body := orderBody symbol side amount
  let bodyStr := jsonDumps body
  let _headers := getAuthHeaders secretKey apiKey "POST" "/api/v1/trade/orders" bodyStr timestamp
  match createMarketOrderTry net with
  | .ok v => .ok v
  | .error (.requestExc _) => .ok (.dict [])
  | .error e => .error e

/-! ## Stream ingester (`strategy.py`, `LiveUpdater`) -/

/-- Model of the head of `LiveUpdater._ws_loop` (parameter validation):
reads `ws_url`, `jwt` and `symbol`; when any is missing or falsy it logs
an error and returns `Option.none` — returning normally, raising
nothing. -/
def LiveUpdater.wsLoopStart (params : List (String × PyVal)) :
    Except PyErr (Option (PyVal × PyVal × PyVal)) :=
  let ws := pyDictGet params "ws_url"
  let jwt := pyDictGet params "jwt"
  let sym := pyDictGet params "symbol"
  if truthy ws && truthy jwt && truthy sym then .ok (some (ws, jwt, sym))
  else .ok Option.none

/-- Whether an order dict passes the membership test
`order_data.get("status") in ["filled", "partially_filled"]`. -/
def isFillOrder (o : PyVal) : Bool :=
  match o with
  | .dict ofs =>
    match pyDictGet ofs "status" with
    | .str s => s == "filled" || s == "partially_filled"
    | _ => false
  | _ => false

/-- The `for order_data in data.get("data", [])` loop: one FILL event per
matching order; a non-dict entry raises `AttributeError` at its `.get`,
ending the loop, while events already emitted stay on the bus. -/
def processOrders : List PyVal → List Event × Option PyErr
  | [] => ([], Option.none)
  | o :: rest =>
    match o with
    | .dict ofs =>
      let (evs, err) := processOrders rest
      if isFillOrder (.dict ofs) then (⟨.FILL, .dict ofs⟩ :: evs, err) else (evs, err)
    | _ => ([], some (.attrErr "get"))

/-- The body of `LiveUpdater._process_ws_message` after `json.loads`:
the events put on the bus, and the exception (if any) that the
surrounding handlers then catch. -/
def processWsCore (v : PyVal) : List Event × Option PyErr :=
  match v with
  | .dict fs =>
    match pyDictGet fs "event_type" with
    | .str "Ticker" =>
      match fs.find? (fun kv => kv.1 == "data") with
      | some kv => ([⟨.MARKET, kv.2⟩], Option.none)
      | Option.none => ([], some (.keyErr "data"))
    | .str "OrderUpdate" =>
      match pyDictGetD fs "data" (.list []) with
      | .list orders => processOrders orders
      | _ => ([], some .typeErr)
    | _ => ([], Option.none)
  | _ => ([], some (.attrErr "get"))

/-- What `_process_ws_message` does on the parse outcome of the inbound
message (`Option.none` models a `json.JSONDecodeError` from `json.loads`):
the emitted events, plus the error reaching the `except` clauses. -/
def processWsMessageRaw (parsed : Option PyVal) : List Event × Option PyErr :=
  match parsed with
  | Option.none => ([], some .jsonDecodeErr)
  | some v => processWsCore v

/-- The two `except` clauses of `_process_ws_message`: the first catches
`json.JSONDecodeError`, the second every other `Exception`; both log and
swallow. -/
def wsExceptClauses (e : PyErr) : Option Unit :=
  match e with
  | .jsonDecodeErr => some ()
  | _ => some ()

/-- `_process_ws_message` as seen by its caller: the emitted events when
every raised error is caught, or the uncaught exception. -/
def processWsMessage (parsed : Option PyVal) : Except PyErr (List Event) :=
  match processWsMessageRaw parsed with
  | (evs, Option.none) => .ok evs
  | (evs, some e) =>
    match wsExceptClauses e with
    | some _ => .ok evs
    | Option.none => .error e

/-- Observable actions of one run of `_ws_loop`. -/
inductive WsAction where
  | readActive (b : Bool)
  | connectAttempt
  | subscribe
  | processMsg
  | sleep5
deriving DecidableEq

/-- Outcome of one connection attempt: the connect (or session setup)
raises, or a session delivers `msgs` messages and then ends, either by a
connection exception or by a graceful close. -/
inductive ConnOutcome where
  | connectFail
  | session (msgs : Nat) (endsInError : Bool)

/-- The `async for message in websocket` loop: before each message the
body re-reads `self.active` and breaks when it is cleared. Returns the
trace, the next flag-read index, and whether the loop broke on a cleared
flag. -/
def runMsgs (flag : Nat → Bool) : Nat → Nat → List WsAction × Nat × Bool
  | 0, i => ([], i, false)
  | n + 1, i =>
    if flag i then
      let (as, i', b) := runMsgs flag n (i + 1)
      (.readActive true :: .processMsg :: as, i', b)
    else ([.readActive false], i + 1, true)

/-- Trace semantics of `LiveUpdater._ws_loop` after parameter validation.
`flag j` is the value of `self.active` at its `j`-th read, `conn c` the
outcome of the `c`-th connection attempt, and `fuel` bounds the number of
`while` iterations observed. Returns the trace and whether the loop
exited (`true`) rather than running out of observation fuel (`false`).
A failed connect and a session ending in a connection exception are
followed by the fixed `sleep(5)`; a graceful close and a deactivation
break are not. -/
def wsLoop (flag : Nat → Bool) (conn : Nat → ConnOutcome) :
    Nat → Nat → Nat → List WsAction × Bool
  | 0, _, _ => ([], false)
  | fuel + 1, i, c =>
    if flag i then
      match conn c with
      | .connectFail =>
        let (as, b) := wsLoop flag conn fuel (i + 1) (c + 1)
        (.readActive true :: .connectAttempt :: .sleep5 :: as, b)
      | .session n endsInError =>
        let (ms, i', broke) := runMsgs flag n (i + 1)
        let tail := if !broke && endsInError then [WsAction.sleep5] else []
        let (as, b) := wsLoop flag conn fuel i' (c + 1)
        (.readActive true :: .connectAttempt :: .subscribe :: ms ++ tail ++ as, b)
    else ([.readActive false], true)

/-! ## Decider (`strategy.py`, `DcaDecider`) -/

/-- The decider's state and configuration: the monotone tick counter plus
the three parameters read at construction. -/
structure DcaState where
  tick_count : Nat
  buy_interval : PyVal
  buy_amount : PyVal
  symbol : PyVal

/-- Model of `DcaDecider.__init__`: no validation, only parameter reads
with the documented defaults (`5` ticks, float `0.01`). -/
def DcaDecider.init (params : List (String × PyVal)) : DcaState :=
  { tick_count := 0
    buy_interval := pyDictGetD params "buy_interval_ticks" (.int 5)
    buy_amount := pyDictGetD params "buy_amount" (.float "0.01")
    symbol := pyDictGet params "symbol" }

/-- The ORDER event built by `DcaDecider.process` when the interval fires. -/
def orderEvent (symbol amount : PyVal) : Event :=
  ⟨.ORDER, .dict [("symbol", symbol), ("side", .str "buy"), ("amount", amount)]⟩

/-- Model of `DcaDecider.process`: increments the tick counter, reads
`event.data.get('price')` for the log line, and emits one ORDER event
when `tick_count % buy_interval == 0`. Python `%` by `0` raises
`ZeroDivisionError`, and on a non-integer interval raises `TypeError`.
For the equals-zero test `Int.emod` agrees with Python `%` (both are zero
exactly on divisibility). -/
def DcaDecider.process (st : DcaState) (ev : Event) : Except PyErr (DcaState × List Event) :=
  let t := st.tick_count + 1
  match pyDotGet ev.data "price" with
  | .error e => .error e
  | .ok _price =>
    match st.buy_interval with
    | .int k =>
      if k = 0 then .error .zeroDivision
      else if (t : Int) % k = 0 then
        .ok ({ st with tick_count := t }, [orderEvent st.symbol st.buy_amount])
      else .ok ({ st with tick_count := t }, [])
    | _ => .error .typeErr

/-- The decider's consuming loop: `process` applied to each delivered
MARKET event in order, accumulating the emitted ORDER events. -/
def runDecider (st : DcaState) : List Event → Except PyErr (DcaState × List Event)
  | [] => .ok (st, [])
  | e :: es =>
    match DcaDecider.process st e with
    | .error err => .error err
    | .ok (st', evs) =>
      match runDecider st' es with
      | .error err => .error err
      | .ok (st'', evs') => .ok (st'', evs ++ evs')

/-! ## Executor (`strategy.py`, `LiveExecutor`) -/

/-- The body of `LiveExecutor.process` before exception handling: reads
symbol/side/amount from the event data with `.get` and issues exactly one
`create_market_order` call (`exchange` is the injected callable, which
may raise anything). Returns the calls actually issued and the error, if
any, reaching the `except` clause. The executor emits no events: there
is no `event_bus.put` in its source. -/
def executorProcessRaw (exchange : PyVal → PyVal → PyVal → Except PyErr PyVal)
    (ev : Event) : List (PyVal × PyVal × PyVal) × Option PyErr :=
  match ev.data with
  | .dict fs =>
    let s := pyDictGet fs "symbol"
    let sd := pyDictGet fs "side"
    let a := pyDictGet fs "amount"
    match exchange s sd a with
    | .ok _ => ([(s, sd, a)], Option.none)
    | .error e => ([(s, sd, a)], some e)
  | _ => ([], some (.attrErr "get"))

/-- `LiveExecutor.process` as seen by the consuming loop: the
`except Exception` clause catches any error, logs it, and returns
normally; the call is never retried. -/
def executorProcess (exchange : PyVal → PyVal → PyVal → Except PyErr PyVal)
    (ev : Event) : List (PyVal × PyVal × PyVal) :=
  (executorProcessRaw exchange ev).1

/-- The executor's consuming loop over a sequence of ORDER events, with a
possibly different exchange behavior for each delivery. -/
def runExecutor (exchange : Nat → PyVal → PyVal → PyVal → Except PyErr PyVal) :
    List Event → Nat → List (List (PyVal × PyVal × PyVal))
  | [], _ => []
  | e :: es, n => executorProcess (exchange n) e :: runExecutor exchange es (n + 1)

/-- The events the executor itself puts on the bus while processing an
event: none — `LiveExecutor.process` contains no `event_bus.put`
(fills arrive through the ingester instead). -/
def executorEmittedEvents (_exchange : PyVal → PyVal → PyVal → Except PyErr PyVal)
    (_ev : Event) : List Event := []

/-- Number of connection attempts in a `_ws_loop` trace. -/
def countConnects (l : List WsAction) : Nat :=
  l.countP (fun a => a == WsAction.connectAttempt)

/-- Whether a trace fragment contains no connection attempt. -/
def connFree (l : List WsAction) : Bool :=
  l.all (fun a => !(a == WsAction.connectAttempt))

/-- Whether a trace fragment contains no `readActive false`. -/
def stopFree (l : List WsAction) : Bool :=
  l.all (fun a => !(a == WsAction.readActive false))

/-- Checks that after every read of the active flag that returned `false`,
the rest of the trace contains no connection attempt. -/
def noConnectAfterStop : List WsAction → Bool
  | [] => true
  | a :: rest =>
    (if a == WsAction.readActive false then connFree rest else true) && noConnectAfterStop rest

/-- A flag behavior in which deactivation is permanent: once a read
returns `false`, every later read returns `false` (the hosting strategy
clears `active` once, at shutdown, and never re-sets it). -/
def Deactivating (flag : Nat → Bool) : Prop :=
  ∀ m n : Nat, m ≤ n → flag m = false → flag n = false

/-! ## Theorems -/

/-- Helper: closed form of the decider's run from an arbitrary tick count.
With interval `k ≥ 1` the run succeeds, advances the counter by the
number of events, and the emitted ORDER events are `⌊(t+N)/k⌋ - ⌊t/k⌋`
copies of the one fixed order event. -/
theorem runDecider_formula (k : Nat) (hk : 1 ≤ k) (amt sym : PyVal)
    (ds : List (List (String × PyVal))) :
    ∀ t : Nat,
      runDecider ⟨t, .int (k : Int), amt, sym⟩ (ds.map fun d => ⟨.MARKET, .dict d⟩) =
        .ok (⟨t + ds.length, .int (k : Int), amt, sym⟩,
             List.replicate ((t + ds.length) / k - t / k) (orderEvent sym amt)) := by
  induction ds with
  | nil =>
    intro t
    simp [runDecider, Nat.sub_self]
  | cons d ds ih =>
    intro t
    have hk0 : (k : Int) ≠ 0 := by
      simp only [ne_eq, Nat.cast_eq_zero]
      omega
    have hcond : ((((t + 1 : Nat)) : Int) % (k : Int) = 0) ↔ ((t + 1) % k = 0) := by
      rw [← Int.natCast_mod]
      exact_mod_cast Iff.rfl
    have hdvd : k ∣ t + 1 ↔ (t + 1) % k = 0 := Nat.dvd_iff_mod_eq_zero
    have hadd : t + 1 + ds.length = t + (ds.length + 1) := by omega
    have hmono : (t + 1) / k ≤ (t + (ds.length + 1)) / k :=
      Nat.div_le_div_right (by omega)
    simp only [List.map_cons, List.length_cons, runDecider, DcaDecider.process, pyDotGet]
    rw [if_neg hk0]
    by_cases htrig : (t + 1) % k = 0
    · rw [if_pos (hcond.mpr htrig)]
      simp only [ih (t + 1)]
      have hsucc : (t + 1) / k = t / k + 1 := by
        rw [Nat.succ_div, if_pos (hdvd.mpr htrig)]
      have hcount : (t + (ds.length + 1)) / k - t / k =
          ((t + (ds.length + 1)) / k - (t + 1) / k) + 1 := by
        rcases Nat.le.dest hmono with ⟨m, hm⟩
        rw [← hm, hsucc]
        generalize t / k = a
        omega
      simp only [List.cons_append, List.nil_append]
      rw [hadd, hcount, List.replicate_succ]
    · rw [if_neg (fun hc => htrig (hcond.mp hc))]
      simp only [ih (t + 1)]
      have hsucc : (t + 1) / k = t / k := by
        rw [Nat.succ_div, if_neg (fun hd => htrig (hdvd.mp hd)), Nat.add_zero]
      simp only [List.nil_append]
      rw [hadd, ← hsucc]

/-- C1: a decider constructed with `buy_interval_ticks = k ≥ 1`, fed any
sequence of `N` MARKET events with arbitrary dict payloads (a `price` key
is not required), emits exactly `⌊N / k⌋` ORDER events, each with data
exactly `{symbol: configured symbol, side: "buy", amount: configured
buy_amount}`; and every proper run of fewer than `k` events emits no
ORDER event at all (tick 0 never triggers). -/
theorem C1_dca_order_schedule (k : Nat) (hk : 1 ≤ k) (amt sym : PyVal)
    (payloads : List (List (String × PyVal))) :
    runDecider
        (DcaDecider.init
          [("buy_interval_ticks", PyVal.int (k : Int)), ("buy_amount", amt), ("symbol", sym)])
        (payloads.map fun d => ⟨.MARKET, .dict d⟩) =
      .ok (⟨payloads.length, .int (k : Int), amt, sym⟩,
           List.replicate (payloads.length / k) (orderEvent sym amt)) ∧
    (∀ o ∈ List.replicate (payloads.length / k) (orderEvent sym amt),
      o = ⟨.ORDER, .dict [("symbol", sym), ("side", .str "buy"), ("amount", amt)]⟩) ∧
    (∀ n, n < k →
      runDecider
          (DcaDecider.init
            [("buy_interval_ticks", PyVal.int (k : Int)), ("buy_amount", amt), ("symbol", sym)])
          ((payloads.map fun d => ⟨.MARKET, .dict d⟩).take n) =
        .ok (⟨min n payloads.length, .int (k : Int), amt, sym⟩, [])) := by
  have hinit : DcaDecider.init
      [("buy_interval_ticks", PyVal.int (k : Int)), ("buy_amount", amt), ("symbol", sym)] =
      ⟨0, .int (k : Int), amt, sym⟩ := rfl
  refine ⟨?_, ?_, ?_⟩
  · rw [hinit]
    have := runDecider_formula k hk amt sym payloads 0
    simpa using this
  · intro o ho
    rw [List.eq_of_mem_replicate ho]
    rfl
  · intro n hn
    rw [hinit, ← List.map_take]
    have := runDecider_formula k hk amt sym (payloads.take n) 0
    have hlen : (payloads.take n).length = min n payloads.length := List.length_take n payloads
    rw [hlen] at this
    have hz : min n payloads.length / k = 0 :=
      Nat.div_eq_of_lt (lt_of_le_of_lt (min_le_left _ _) hn)
    simpa [hz] using this

/-- C1 witness: the spec's own scenario — `k = 3`, `amount = 0.02`,
`symbol = "BTC-USD"`, three MARKET ticks with prices 100, 101, 99 —
instantiating the schedule theorem: exactly one ORDER event. -/
theorem C1_dca_order_schedule_witness :
    runDecider
        (DcaDecider.init
          [("buy_interval_ticks", PyVal.int 3), ("buy_amount", PyVal.float "0.02"),
           ("symbol", PyVal.str "BTC-USD")])
        ([[("price", PyVal.int 100)], [("price", PyVal.int 101)],
          [("price", PyVal.int 99)]].map fun d => ⟨.MARKET, .dict d⟩) =
      .ok (⟨3, .int 3, PyVal.float "0.02", PyVal.str "BTC-USD"⟩,
           List.replicate 1 (orderEvent (PyVal.str "BTC-USD") (PyVal.float "0.02"))) :=
  (C1_dca_order_schedule 3 (by decide) (PyVal.float "0.02") (PyVal.str "BTC-USD")
    [[("price", PyVal.int 100)], [("price", PyVal.int 101)], [("price", PyVal.int 99)]]).1

/-- C6 counterexample: constructing the decider with `buy_interval_ticks = 0`
succeeds — `__init__` validates nothing — and the very first MARKET event
then raises `ZeroDivisionError` from the modulo, contradicting the claim
of a configuration error at construction, before any event is processed. -/
theorem C6_no_construction_check :
    DcaDecider.init [("buy_interval_ticks", PyVal.int 0), ("symbol", PyVal.str "BTC-USD")] =
        ⟨0, PyVal.int 0, PyVal.float "0.01", PyVal.str "BTC-USD"⟩ ∧
      DcaDecider.process ⟨0, PyVal.int 0, PyVal.float "0.01", PyVal.str "BTC-USD"⟩
          ⟨.MARKET, .dict [("price", PyVal.int 100)]⟩ = .error .zeroDivision :=
  ⟨rfl, rfl⟩

/-- C6 amended: the decider performs no construction-time validation: with
`buy_interval_ticks = 0` it is constructed normally, and the division by
zero happens when a MARKET event is processed — every processed MARKET
event with a dict payload raises `ZeroDivisionError`. -/
theorem C6_zero_interval_raises_at_process (params : List (String × PyVal))
    (h : pyDictGetD params "buy_interval_ticks" (.int 5) = .int 0) :
    (DcaDecider.init params).buy_interval = .int 0 ∧
      ∀ (st : DcaState) (ev : Event), st.buy_interval = .int 0 → (∃ d, ev.data = .dict d) →
        DcaDecider.process st ev = .error .zeroDivision := by
  constructor
  · exact h
  · intro st ev hst ⟨d, hd⟩
    simp [DcaDecider.process, hd, pyDotGet, hst]

/-- C6 witness: the amended theorem applied at a concrete configuration
and a concrete MARKET event. -/
theorem C6_zero_interval_raises_at_process_witness :
    DcaDecider.process ⟨0, PyVal.int 0, PyVal.float "0.01", PyVal.none⟩
        ⟨.MARKET, .dict []⟩ = .error .zeroDivision :=
  (C6_zero_interval_raises_at_process [("buy_interval_ticks", PyVal.int 0)] rfl).2
    ⟨0, PyVal.int 0, PyVal.float "0.01", PyVal.none⟩ ⟨.MARKET, .dict []⟩ rfl ⟨[], rfl⟩

/-- Helper: right cancellation for string concatenation. -/
theorem string_append_right_cancel {a b c : String} (h : a ++ c = b ++ c) : a = b := by
  have hd := congrArg String.data h
  simp only [String.data_append] at hd
  exact String.ext (List.append_cancel_right hd)

/-- Helper: left cancellation for string concatenation. -/
theorem string_append_left_cancel {a b c : String} (h : c ++ a = c ++ b) : a = b := by
  have hd := congrArg String.data h
  simp only [String.data_append] at hd
  exact String.ext (List.append_cancel_left hd)

/-- Helper: every lowercase-hex character table lookup with an in-range
index lands in the table. -/
theorem hexDigits_getD_mem (i : Nat) (hi : i < 16) : hexDigits.getD i '0' ∈ hexDigits := by
  interval_cases i <;> decide

/-- C2 counterexample: the method strings `"post"` and `"POST"` differ,
yet with the other three fields held fixed they yield the identical
pre-hash string — the method is uppercased before concatenation — and
hence the identical signature. Changing exactly one of the four fields
therefore does not always change the pre-hash string. -/
theorem C2_method_case_collision :
    prehashString "1700000000" "post" "/api/v1/trade/orders" "body" =
        prehashString "1700000000" "POST" "/api/v1/trade/orders" "body" ∧
      ("post" : String) ≠ "POST" ∧
      signatureOf "secret" "1700000000" "post" "/api/v1/trade/orders" "body" =
        signatureOf "secret" "1700000000" "POST" "/api/v1/trade/orders" "body" := by
  have h : prehashString "1700000000" "post" "/api/v1/trade/orders" "body" =
      prehashString "1700000000" "POST" "/api/v1/trade/orders" "body" := by decide
  exact ⟨h, by decide, congrArg (hmacSha256HexDigest "secret") h⟩

/-- C2 amended: the `X-API-SIGN` header is exactly the spec's Signer
contract — lowercase-hex HMAC-SHA256 keyed by the secret over
`timestamp + method.upper() + path + body` — and signing the same tuple
twice yields the same digest; changing only the timestamp, only the
path, or only the body always changes the pre-hash string, while
changing only the method changes the pre-hash string exactly when its
uppercasing changes; every character of the signature is one of the
sixteen lowercase hex digits. -/
theorem C2_signature_contract :
    (∀ sk ak m p b ts, getAuthHeaders sk ak m p b ts =
        [("Content-Type", "application/json"), ("X-API-KEY", ak), ("X-API-TIMESTAMP", ts),
         ("X-API-SIGN", specSignature sk m p b ts)]) ∧
    (∀ sk ts m p b, signatureOf sk ts m p b = signatureOf sk ts m p b) ∧
    (∀ ts ts' m p b, ts ≠ ts' → prehashString ts m p b ≠ prehashString ts' m p b) ∧
    (∀ ts m p p' b, p ≠ p' → prehashString ts m p b ≠ prehashString ts m p' b) ∧
    (∀ ts m p b b', b ≠ b' → prehashString ts m p b ≠ prehashString ts m p b') ∧
    (∀ ts m m' p b,
      prehashString ts m p b = prehashString ts m' p b ↔ pyUpper m = pyUpper m') ∧
    (∀ sk ts m p b, ∀ c ∈ (signatureOf sk ts m p b).data, c ∈ hexDigits) := by
  refine ⟨fun sk ak m p b ts => rfl, fun sk ts m p b => rfl, ?_, ?_, ?_, ?_, ?_⟩
  · intro ts ts' m p b hne he
    exact hne (string_append_right_cancel (string_append_right_cancel
      (string_append_right_cancel he)))
  · intro ts m p p' b hne he
    exact hne (string_append_left_cancel (string_append_right_cancel he))
  · intro ts m p b b' hne he
    exact hne (string_append_left_cancel he)
  · intro ts m m' p b
    constructor
    · intro he
      exact string_append_left_cancel (string_append_right_cancel (string_append_right_cancel he))
    · intro hu
      simp only [prehashString, hu]
  · intro sk ts m p b c hc
    have hmem : c ∈ (hmacSha256 (utf8Bytes sk)
        (utf8Bytes (prehashString ts m p b))).flatMap hexByte := hc
    rw [List.mem_flatMap] at hmem
    obtain ⟨bb, _, hbb⟩ := hmem
    simp only [hexByte, List.mem_cons, List.not_mem_nil, or_false] at hbb
    rcases hbb with h1 | h2
    · rw [h1]
      exact hexDigits_getD_mem _ (Nat.mod_lt _ (by norm_num))
    · rw [h2]
      exact hexDigits_getD_mem _ (Nat.mod_lt _ (by norm_num))

/-- C2 witness: the contract's conditional parts applied at concrete
fields, with every hypothesis discharged by evaluation. -/
theorem C2_signature_contract_witness :
    prehashString "1" "get" "/a" "b" ≠ prehashString "2" "get" "/a" "b" ∧
    prehashString "1" "get" "/a" "b" ≠ prehashString "1" "get" "/c" "b" ∧
    prehashString "1" "get" "/a" "b" ≠ prehashString "1" "get" "/a" "c" ∧
    (prehashString "1" "get" "/a" "b" = prehashString "1" "gEt" "/a" "b" ↔
      pyUpper "get" = pyUpper "gEt") :=
  ⟨C2_signature_contract.2.2.1 "1" "2" "get" "/a" "b" (by decide),
   C2_signature_contract.2.2.2.1 "1" "get" "/a" "/c" "b" (by decide),
   C2_signature_contract.2.2.2.2.1 "1" "get" "/a" "b" "c" (by decide),
   C2_signature_contract.2.2.2.2.2.1 "1" "get" "gEt" "/a" "b"⟩

/-- C3 counterexample: a final response with status 304 (not 2xx, but
outside the 400-599 band that `raise_for_status` raises on) and a
parseable JSON body makes `create_market_order` return that parsed body,
so the parsed body is not returned only on 2xx statuses. -/
theorem C3_non_2xx_body_returned :
    createMarketOrder "sk" "ak" (.str "BTC-USD") (.str "buy") (.float "0.01") "1700000000"
        (.response 304 (some (.dict [("status", .str "cached")])) "") =
      .ok (.dict [("status", .str "cached")]) ∧
    ¬(200 ≤ 304 ∧ 304 < 300) := by
  constructor
  · rfl
  · decide

/-- C3 amended: `create_market_order` never raises to its caller — every
failure mode of the `try` block is a `requests.RequestException`, which
the `except` clause converts into a logged `{}` — and it returns the
parsed response body exactly when the POST produced a response whose
status is outside 400-599 and whose body parses as JSON; in every other
case (transport failure, 4xx/5xx status, unparseable body) it returns
`{}`. -/
theorem C3_create_order_never_raises (sk ak : String) (symbol side amount : PyVal)
    (ts : String) (net : PostOutcome) :
    ∃ v, createMarketOrder sk ak symbol side amount ts net = .ok v ∧
      (net = .transportError → v = .dict []) ∧
      (∀ s j txt, net = .response s j txt →
        ((400 ≤ s ∧ s < 600) → v = .dict []) ∧
        (¬(400 ≤ s ∧ s < 600) → v = j.getD (.dict []))) := by
  rcases net with _ | ⟨s, j, txt⟩
  · refine ⟨.dict [], rfl, fun _ => rfl, ?_⟩
    intro s j txt h
    cases h
  · by_cases hs : 400 ≤ s ∧ s < 600
    · refine ⟨.dict [], ?_, ?_, ?_⟩
      · simp [createMarketOrder, createMarketOrderTry, raiseForStatus, hs]
      · intro h
        cases h
      · intro s' j' txt' h
        injection h with h1 h2 h3
        subst h1
        exact ⟨fun _ => rfl, fun hc => absurd hs hc⟩
    · rcases j with _ | v
      · refine ⟨.dict [], ?_, ?_, ?_⟩
        · simp [createMarketOrder, createMarketOrderTry, raiseForStatus, responseJson, hs]
        · intro h
          cases h
        · intro s' j' txt' h
          injection h with h1 h2 h3
          subst h1
          subst h2
          exact ⟨fun hc => absurd hc hs, fun _ => rfl⟩
      · refine ⟨v, ?_, ?_, ?_⟩
        · simp [createMarketOrder, createMarketOrderTry, raiseForStatus, responseJson, hs]
        · intro h
          cases h
        · intro s' j' txt' h
          injection h with h1 h2 h3
          subst h1
          subst h2
          exact ⟨fun hc => absurd hc hs, fun _ => rfl⟩

/-- C3 witness: the never-raises theorem applied to a concrete 500
response — the call returns `{}` rather than raising. -/
theorem C3_create_order_never_raises_witness :
    createMarketOrder "sk" "ak" (.str "BTC-USD") (.str "buy") (.float "0.01") "1700000000"
        (.response 500 Option.none "oops") = .ok (.dict []) := by
  obtain ⟨v, hv, -, hresp⟩ :=
    C3_create_order_never_raises "sk" "ak" (.str "BTC-USD") (.str "buy") (.float "0.01")
      "1700000000" (.response 500 Option.none "oops")
  rw [hv, (hresp 500 Option.none "oops" rfl).1 (by norm_num)]

/-- Helper: on a batch whose entries are all order objects, the order-update
loop raises nothing and emits exactly the FILL events of the matching
orders, in batch order. -/
theorem processOrders_all_dicts :
    ∀ orders : List PyVal, (∀ o ∈ orders, ∃ fs, o = PyVal.dict fs) →
      processOrders orders =
        ((orders.filter isFillOrder).map (fun o => ⟨.FILL, o⟩), Option.none) := by
  intro orders
  induction orders with
  | nil => intro _; rfl
  | cons o rest ih =>
    intro h
    obtain ⟨fs, rfl⟩ := h o (List.mem_cons_self o rest)
    have hrest := ih (fun o ho => h o (List.mem_cons_of_mem _ ho))
    simp only [processOrders, hrest, List.filter_cons]
    by_cases hf : isFillOrder (.dict fs)
    · simp [hf]
    · simp [hf]

/-- C5: an OrderUpdate batch whose `data` entries are order objects makes
`_process_ws_message` emit exactly one FILL event — carrying the order's
own payload — for every order whose status is `"filled"` or
`"partially_filled"`, in batch order, and no event for any other order;
no exception reaches the handlers. -/
theorem C5_order_update_fill_events (orders : List PyVal)
    (h : ∀ o ∈ orders, ∃ fs, o = PyVal.dict fs) :
    processWsCore (.dict [("event_type", .str "OrderUpdate"), ("data", .list orders)]) =
      ((orders.filter isFillOrder).map (fun o => ⟨.FILL, o⟩), Option.none) := by
  have hcore : processWsCore (.dict [("event_type", .str "OrderUpdate"),
      ("data", .list orders)]) = processOrders orders := rfl
  rw [hcore]
  exact processOrders_all_dicts orders h

/-- C5 witness: the spec's own scenario — a batch of two orders with
statuses `["filled", "open"]` yields exactly one FILL event, carrying the
filled order's payload. -/
theorem C5_order_update_fill_events_witness :
    processWsCore (.dict [("event_type", .str "OrderUpdate"),
        ("data", .list [PyVal.dict [("status", PyVal.str "filled"), ("order_id", PyVal.int 1)],
                        PyVal.dict [("status", PyVal.str "open"), ("order_id", PyVal.int 2)]])]) =
      ([⟨.FILL, PyVal.dict [("status", PyVal.str "filled"), ("order_id", PyVal.int 1)]⟩],
       Option.none) :=
  C5_order_update_fill_events
    [PyVal.dict [("status", PyVal.str "filled"), ("order_id", PyVal.int 1)],
     PyVal.dict [("status", PyVal.str "open"), ("order_id", PyVal.int 2)]]
    (by rintro o ho; fin_cases ho <;> exact ⟨_, rfl⟩)

/-- C7 counterexample: with `ws_url` missing from the parameters, the
ingester's loop entry returns normally (`Except.ok` with the logged
early-return marker `Option.none`) — no configuration error is raised at
construction or anywhere else, contrary to the claim that missing
ingester parameters are fatal at construction. -/
theorem C7_updater_missing_param_no_raise :
    LiveUpdater.wsLoopStart [("jwt", PyVal.str "token"), ("symbol", PyVal.str "BTC-USD")] =
      .ok Option.none := rfl

/-- C7 amended: missing exchange-client credentials are fatal at
construction — `EopsLiveExchange.__init__` raises `ValueError` exactly
when one of `base_url`, `api_key`, `secret_key` is missing or falsy —
whereas missing ingester parameters (`ws_url`, `jwt`, `symbol`) are not:
`_ws_loop` never raises, and merely logs and returns early exactly when
one of them is missing or falsy. The decider's two numeric parameters
default to `5` ticks and `0.01` units. -/
theorem C7_config_error_policy (params : List (String × PyVal)) :
    ((truthy (pyDictGet params "base_url") && truthy (pyDictGet params "api_key") &&
        truthy (pyDictGet params "secret_key")) = true →
      EopsLiveExchange.init params =
        .ok ⟨pyDictGet params "base_url", pyDictGet params "api_key",
             pyDictGet params "secret_key"⟩) ∧
    ((truthy (pyDictGet params "base_url") && truthy (pyDictGet params "api_key") &&
        truthy (pyDictGet params "secret_key")) = false →
      EopsLiveExchange.init params =
        .error (.valueErr
          "base_url, api_key, and secret_key must be provided in EXCHANGE_PARAMS.")) ∧
    (∃ r, LiveUpdater.wsLoopStart params = .ok r ∧
      (r = Option.none ↔
        (truthy (pyDictGet params "ws_url") && truthy (pyDictGet params "jwt") &&
          truthy (pyDictGet params "symbol")) = false)) ∧
    (DcaDecider.init [] ).buy_interval = .int 5 ∧
    (DcaDecider.init [] ).buy_amount = .float "0.01" := by
  refine ⟨?_, ?_, ?_, rfl, rfl⟩
  · intro h
    simp [EopsLiveExchange.init, h]
  · intro h
    simp [EopsLiveExchange.init, h]
  · by_cases h : (truthy (pyDictGet params "ws_url") && truthy (pyDictGet params "jwt") &&
        truthy (pyDictGet params "symbol")) = true
    · refine ⟨some (pyDictGet params "ws_url", pyDictGet params "jwt",
        pyDictGet params "symbol"), ?_, ?_⟩
      · simp [LiveUpdater.wsLoopStart, h]
      · simp [h]
    · refine ⟨Option.none, ?_, ?_⟩
      · simp only [Bool.not_eq_true] at h
        simp [LiveUpdater.wsLoopStart, h]
      · simp only [Bool.not_eq_true] at h
        simp [h]

/-- C7 witness: the policy theorem at a complete exchange configuration
and an ingester configuration missing `ws_url`: the exchange constructor
succeeds, and the ingester start returns early without raising. -/
theorem C7_config_error_policy_witness :
    EopsLiveExchange.init [("base_url", PyVal.str "http://x"), ("api_key", PyVal.str "k"),
        ("secret_key", PyVal.str "s")] =
      .ok ⟨PyVal.str "http://x", PyVal.str "k", PyVal.str "s"⟩ :=
  (C7_config_error_policy [("base_url", PyVal.str "http://x"), ("api_key", PyVal.str "k"),
      ("secret_key", PyVal.str "s")]).1 (by decide)

/-- C8: the quantity put on the wire is always the string `str(amount)` —
but the amount itself is a binary float: with `buy_amount` left to its
default, the decider state holds the Python float literal `0.01`, the
emitted ORDER event carries that float as its `amount`, and only
`create_market_order` converts it to a string in the request body. -/
theorem C8_event_amount_is_binary_float :
    (∀ symbol side amount, orderBody symbol side amount =
      .dict [("instrument_id", symbol), ("side", side),
             ("order_type", .str "market"), ("quantity", .str (pyStr amount))]) ∧
    (DcaDecider.init [("symbol", PyVal.str "BTC-USD"),
        ("buy_interval_ticks", PyVal.int 1)]).buy_amount = PyVal.float "0.01" ∧
    (PyVal.float "0.01").isFloat = true ∧
    DcaDecider.process
        (DcaDecider.init [("symbol", PyVal.str "BTC-USD"), ("buy_interval_ticks", PyVal.int 1)])
        ⟨.MARKET, .dict [("price", PyVal.int 100)]⟩ =
      .ok (⟨1, PyVal.int 1, PyVal.float "0.01", PyVal.str "BTC-USD"⟩,
           [⟨.ORDER, .dict [("symbol", PyVal.str "BTC-USD"), ("side", PyVal.str "buy"),
                            ("amount", PyVal.float "0.01")]⟩]) ∧
    orderBody (PyVal.str "BTC-USD") (PyVal.str "buy") (PyVal.float "0.01") =
      .dict [("instrument_id", PyVal.str "BTC-USD"), ("side", PyVal.str "buy"),
             ("order_type", PyVal.str "market"), ("quantity", PyVal.str "0.01")] :=
  ⟨fun _ _ _ => rfl, rfl, rfl, rfl, rfl⟩

/-- C9: `_process_ws_message` returns normally on every inbound message —
each raising operation in its body yields an `Exception`-subclass error,
and the two `except` clauses catch them all — a malformed (non-JSON)
message is dropped with no event emitted, and a parseable message of
unexpected shape is likewise ignored with no event: here a Ticker with no
`data` key (its `data['data']` raises `KeyError`, caught) and a top-level
non-object (its `.get` raises `AttributeError`, caught). -/
theorem C9_ws_message_errors_contained :
    (∀ parsed, processWsMessage parsed = .ok (processWsMessageRaw parsed).1) ∧
    processWsMessage Option.none = .ok [] ∧
    processWsMessage (some (.dict [("event_type", .str "Ticker")])) = .ok [] ∧
    processWsMessage (some (.list [.int 1])) = .ok [] := by
  refine ⟨?_, rfl, rfl, rfl⟩
  intro parsed
  rcases hre : processWsMessageRaw parsed with ⟨evs, err⟩
  rcases err with _ | e
  · simp [processWsMessage, hre]
  · rcases e <;> simp [processWsMessage, hre, wsExceptClauses]

/-- C10: for every ORDER event with an object payload and every behavior
of the exchange call — including a raised exception — the executor issues
exactly one `create_market_order` call carrying the event's symbol, side
and amount (read with `.get`, so absent keys become `None`); the
`except Exception` clause keeps any error from reaching the consuming
loop; the executor emits no events of its own; and the loop processes
every later ORDER event — a run over a whole sequence produces exactly
one processing record per event, with the event after a failing call
processed exactly as if the failure had not happened. -/
theorem C10_executor_failure_containment :
    (∀ (exchange : PyVal → PyVal → PyVal → Except PyErr PyVal) fs,
      executorProcess exchange ⟨.ORDER, .dict fs⟩ =
        [(pyDictGet fs "symbol", pyDictGet fs "side", pyDictGet fs "amount")]) ∧
    (∀ exchange ev, executorEmittedEvents exchange ev = []) ∧
    (∀ (exchange : Nat → PyVal → PyVal → PyVal → Except PyErr PyVal) evs n,
      (runExecutor exchange evs n).length = evs.length) ∧
    (∀ (exchange : Nat → PyVal → PyVal → PyVal → Except PyErr PyVal) (e₁ e₂ : Event) n,
      runExecutor exchange [e₁, e₂] n =
        [executorProcess (exchange n) e₁, executorProcess (exchange (n + 1)) e₂]) := by
  refine ⟨?_, fun _ _ => rfl, ?_, fun _ _ _ _ => rfl⟩
  · intro exchange fs
    simp only [executorProcess, executorProcessRaw]
    rcases hx : exchange (pyDictGet fs "symbol") (pyDictGet fs "side") (pyDictGet fs "amount")
      with v | e <;> simp [hx]
  · intro exchange evs
    induction evs with
    | nil => intro n; rfl
    | cons e es ih =>
      intro n
      simp only [runExecutor, List.length_cons, ih (n + 1)]

/-- Helper: a connect-free trace fragment contains zero connect attempts. -/
theorem countConnects_eq_zero (l : List WsAction) (h : connFree l = true) :
    countConnects l = 0 := by
  induction l with
  | nil => rfl
  | cons a rest ih =>
    simp only [connFree, List.all_cons, Bool.and_eq_true, Bool.not_eq_true'] at h
    simp only [countConnects, List.countP_cons, h.1]
    simpa [countConnects] using ih h.2

/-- Helper: appending after a stop-free fragment leaves the
no-connect-after-stop check unchanged. -/
theorem ncas_append_of_stopFree (xs ys : List WsAction) (h : stopFree xs = true) :
    noConnectAfterStop (xs ++ ys) = noConnectAfterStop ys := by
  induction xs with
  | nil => rfl
  | cons a rest ih =>
    simp only [stopFree, List.all_cons, Bool.and_eq_true, Bool.not_eq_true'] at h
    simp only [List.cons_append, noConnectAfterStop, h.1, if_false, Bool.true_and]
    exact ih h.2

/-- Helper: a connect-free trace passes the no-connect-after-stop check. -/
theorem ncas_of_connFree (l : List WsAction) (h : connFree l = true) :
    noConnectAfterStop l = true := by
  induction l with
  | nil => rfl
  | cons a rest ih =>
    simp only [connFree, List.all_cons, Bool.and_eq_true] at h
    simp only [noConnectAfterStop, Bool.and_eq_true]
    refine ⟨?_, ih h.2⟩
    by_cases ha : (a == WsAction.readActive false) = true
    · rw [if_pos ha]
      exact h.2
    · rw [if_neg ha]

/-- Helper: the message loop's trace is connect-free; when it did not
break its trace is stop-free; when it broke, the flag was false at the
read just before the returned index and the trace is a stop-free fragment
followed by the one `readActive false`. -/
theorem runMsgs_spec (flag : Nat → Bool) :
    ∀ n i,
      connFree (runMsgs flag n i).1 = true ∧
      ((runMsgs flag n i).2.2 = false → stopFree (runMsgs flag n i).1 = true) ∧
      ((runMsgs flag n i).2.2 = true → flag ((runMsgs flag n i).2.1 - 1) = false ∧
        1 ≤ (runMsgs flag n i).2.1 ∧
        ∃ xs, (runMsgs flag n i).1 = xs ++ [WsAction.readActive false] ∧ stopFree xs = true) := by
  intro n
  induction n with
  | zero =>
    intro i
    exact ⟨rfl, fun _ => rfl, fun h => by simp [runMsgs] at h⟩
  | succ m ih =>
    intro i
    by_cases hfit : flag i = true
    · rcases hp : runMsgs flag m (i + 1) with ⟨as, j, b⟩
      obtain ⟨ihc, ihs, ihb⟩ := ih (i + 1)
      rw [hp] at ihc ihs ihb
      simp only at ihc ihs ihb
      have hr : runMsgs flag (m + 1) i =
          (WsAction.readActive true :: WsAction.processMsg :: as, j, b) := by
        simp [runMsgs, hfit, hp]
      rw [hr]
      refine ⟨?_, ?_, ?_⟩
      · simp only [connFree, List.all_cons, Bool.and_eq_true]
        exact ⟨by decide, by decide, ihc⟩
      · intro hb
        simp only [stopFree, List.all_cons, Bool.and_eq_true]
        exact ⟨by decide, by decide, ihs hb⟩
      · intro hb
        obtain ⟨hflag, hpos, xs, hxs, hsf⟩ := ihb hb
        refine ⟨hflag, hpos, WsAction.readActive true :: WsAction.processMsg :: xs, ?_, ?_⟩
        · simp [hxs]
        · simp only [stopFree, List.all_cons, Bool.and_eq_true]
          exact ⟨by decide, by decide, hsf⟩
    · have hfi : flag i = false := by simpa using hfit
      have hr : runMsgs flag (m + 1) i = ([WsAction.readActive false], i + 1, true) := by
        simp [runMsgs, hfi]
      rw [hr]
      refine ⟨rfl, ?_, ?_⟩
      · intro h
        cases h
      · intro _
        refine ⟨by simpa using hfi, ?_, [], rfl, rfl⟩
        show 1 ≤ i + 1
        omega

/-- Helper: once a while-check read of the flag returns false, the loop
contributes only that read: no connect attempt, and the stop check holds. -/
theorem wsLoop_stopped (flag : Nat → Bool) (conn : Nat → ConnOutcome) (i : Nat)
    (hfi : flag i = false) :
    ∀ fuel c, connFree (wsLoop flag conn fuel i c).1 = true ∧
      noConnectAfterStop (wsLoop flag conn fuel i c).1 = true := by
  intro fuel c
  cases fuel with
  | zero => exact ⟨rfl, rfl⟩
  | succ m =>
    have hr : wsLoop flag conn (m + 1) i c = ([WsAction.readActive false], true) := by
      simp [wsLoop, hfi]
    rw [hr]
    exact ⟨rfl, rfl⟩

/-- Helper: unfolding of the connect counter over a cons. -/
theorem countConnects_cons (a : WsAction) (l : List WsAction) :
    countConnects (a :: l) = countConnects l + (if a == WsAction.connectAttempt then 1 else 0) :=
  List.countP_cons _ _ _

/-- Helper: the connect counter is additive over append. -/
theorem countConnects_append (xs ys : List WsAction) :
    countConnects (xs ++ ys) = countConnects xs + countConnects ys :=
  List.countP_append _ _ _

/-- Helper: stop-freeness is conjunctive over append. -/
theorem stopFree_append (xs ys : List WsAction) :
    stopFree (xs ++ ys) = (stopFree xs && stopFree ys) :=
  List.all_append

/-- Helper: a trace headed by an action other than `readActive false`
passes the stop check exactly when its tail does. -/
theorem ncas_cons_not_stop (a : WsAction) (l : List WsAction)
    (h : (a == WsAction.readActive false) = false) :
    noConnectAfterStop (a :: l) = noConnectAfterStop l := by
  simp [noConnectAfterStop, h]

/-- Helper: under a permanently-deactivating flag, no trace of `_ws_loop`
contains a connect attempt after a read of the flag that returned false:
once deactivation is observed the loop never reconnects. -/
theorem wsLoop_ncas (flag : Nat → Bool) (conn : Nat → ConnOutcome) (hD : Deactivating flag) :
    ∀ fuel i c, noConnectAfterStop (wsLoop flag conn fuel i c).1 = true := by
  intro fuel
  induction fuel with
  | zero =>
    intro i c
    rfl
  | succ m ih =>
    intro i c
    by_cases hfit : flag i = true
    · rcases hcc : conn c with _ | ⟨n, endsErr⟩
      · rcases hw : wsLoop flag conn m (i + 1) (c + 1) with ⟨as, b⟩
        have hr : wsLoop flag conn (m + 1) i c =
            (WsAction.readActive true :: WsAction.connectAttempt :: WsAction.sleep5 :: as, b) := by
          simp [wsLoop, hfit, hcc, hw]
        rw [hr]
        simp only
        rw [ncas_cons_not_stop _ _ (by decide), ncas_cons_not_stop _ _ (by decide),
          ncas_cons_not_stop _ _ (by decide)]
        have := ih (i + 1) (c + 1)
        rw [hw] at this
        exact this
      · rcases hp : runMsgs flag n (i + 1) with ⟨ms, i2, broke⟩
        obtain ⟨hc, hs, hb⟩ := runMsgs_spec flag n (i + 1)
        rw [hp] at hc hs hb
        simp only at hc hs hb
        rcases hw : wsLoop flag conn m i2 (c + 1) with ⟨as, b2⟩
        cases broke with
        | false =>
          have hsf : stopFree ms = true := hs rfl
          have htail : ∀ tl : List WsAction, stopFree tl = true →
              noConnectAfterStop ((ms ++ tl) ++ as) = true := by
            intro tl htl
            rw [ncas_append_of_stopFree (ms ++ tl) as
              (by rw [stopFree_append, hsf, htl]; rfl)]
            have := ih i2 (c + 1)
            rw [hw] at this
            exact this
          cases endsErr with
          | false =>
            have hr : wsLoop flag conn (m + 1) i c =
                (WsAction.readActive true :: WsAction.connectAttempt :: WsAction.subscribe ::
                  (ms ++ [] ++ as), b2) := by
              simp [wsLoop, hfit, hcc, hp, hw]
            rw [hr]
            simp only
            rw [ncas_cons_not_stop _ _ (by decide), ncas_cons_not_stop _ _ (by decide),
              ncas_cons_not_stop _ _ (by decide)]
            exact htail [] rfl
          | true =>
            have hr : wsLoop flag conn (m + 1) i c =
                (WsAction.readActive true :: WsAction.connectAttempt :: WsAction.subscribe ::
                  (ms ++ [WsAction.sleep5] ++ as), b2) := by
              simp [wsLoop, hfit, hcc, hp, hw]
            rw [hr]
            simp only
            rw [ncas_cons_not_stop _ _ (by decide), ncas_cons_not_stop _ _ (by decide),
              ncas_cons_not_stop _ _ (by decide)]
            exact htail [WsAction.sleep5] rfl
        | true =>
          obtain ⟨hflag, hpos, xs, hxs, hxsf⟩ := hb rfl
          have hfi2 : flag i2 = false := hD (i2 - 1) i2 (by omega) hflag
          have hstop := wsLoop_stopped flag conn i2 hfi2 m (c + 1)
          rw [hw] at hstop
          simp only at hstop
          have hr : wsLoop flag conn (m + 1) i c =
              (WsAction.readActive true :: WsAction.connectAttempt :: WsAction.subscribe ::
                (ms ++ [] ++ as), b2) := by
            simp [wsLoop, hfit, hcc, hp, hw]
          rw [hr]
          simp only
          rw [ncas_cons_not_stop _ _ (by decide), ncas_cons_not_stop _ _ (by decide),
            ncas_cons_not_stop _ _ (by decide)]
          rw [List.append_nil, hxs, List.append_assoc, List.singleton_append,
            ncas_append_of_stopFree xs _ hxsf]
          simp only [noConnectAfterStop, if_pos (by decide : (WsAction.readActive false ==
            WsAction.readActive false) = true), Bool.and_eq_true]
          exact ⟨hstop.1, hstop.2⟩
    · have hfi : flag i = false := by simpa using hfit
      exact (wsLoop_stopped flag conn i hfi (m + 1) c).2

/-- Helper: while the flag stays set the loop never exits, and performs
exactly one connection attempt per observed iteration — the retry never
gives up. -/
theorem wsLoop_active (flag : Nat → Bool) (conn : Nat → ConnOutcome) (hT : ∀ j, flag j = true) :
    ∀ fuel i c, (wsLoop flag conn fuel i c).2 = false ∧
      countConnects (wsLoop flag conn fuel i c).1 = fuel := by
  intro fuel
  induction fuel with
  | zero =>
    intro i c
    exact ⟨rfl, rfl⟩
  | succ m ih =>
    intro i c
    rcases hcc : conn c with _ | ⟨n, endsErr⟩
    · rcases hw : wsLoop flag conn m (i + 1) (c + 1) with ⟨as, b⟩
      obtain ⟨ihb, ihn⟩ := ih (i + 1) (c + 1)
      rw [hw] at ihb ihn
      simp only at ihb ihn
      have hr : wsLoop flag conn (m + 1) i c =
          (WsAction.readActive true :: WsAction.connectAttempt :: WsAction.sleep5 :: as, b) := by
        simp [wsLoop, hT i, hcc, hw]
      rw [hr]
      refine ⟨ihb, ?_⟩
      rw [countConnects_cons, if_neg (by decide), countConnects_cons, if_pos (by decide),
        countConnects_cons, if_neg (by decide)]
      omega
    · rcases hp : runMsgs flag n (i + 1) with ⟨ms, i2, broke⟩
      obtain ⟨hc, hs, hb⟩ := runMsgs_spec flag n (i + 1)
      rw [hp] at hc hs hb
      simp only at hc hs hb
      cases broke with
      | true =>
        have := (hb rfl).1
        rw [hT (i2 - 1)] at this
        cases this
      | false =>
        rcases hw : wsLoop flag conn m i2 (c + 1) with ⟨as, b2⟩
        obtain ⟨ihb, ihn⟩ := ih i2 (c + 1)
        rw [hw] at ihb ihn
        simp only at ihb ihn
        have hms : countConnects ms = 0 := countConnects_eq_zero ms hc
        cases endsErr with
        | false =>
          have hr : wsLoop flag conn (m + 1) i c =
              (WsAction.readActive true :: WsAction.connectAttempt :: WsAction.subscribe ::
                (ms ++ [] ++ as), b2) := by
            simp [wsLoop, hT i, hcc, hp, hw]
          rw [hr]
          refine ⟨ihb, ?_⟩
          rw [countConnects_cons, if_neg (by decide), countConnects_cons, if_pos (by decide),
            countConnects_cons, if_neg (by decide), List.append_nil, countConnects_append,
            hms, ihn]
          omega
        | true =>
          have hr : wsLoop flag conn (m + 1) i c =
              (WsAction.readActive true :: WsAction.connectAttempt :: WsAction.subscribe ::
                (ms ++ [WsAction.sleep5] ++ as), b2) := by
            simp [wsLoop, hT i, hcc, hp, hw]
          rw [hr]
          refine ⟨ihb, ?_⟩
          have h5 : countConnects [WsAction.sleep5] = 0 := rfl
          rw [countConnects_cons, if_neg (by decide), countConnects_cons, if_pos (by decide),
            countConnects_cons, if_neg (by decide), countConnects_append, countConnects_append,
            hms, ihn, h5]
          omega

/-- C4: the connection loop's reconnect policy. While every read of the
`active` flag returns true the loop never exits, and every observed
iteration performs exactly one connection attempt — the retry never gives
up; a failed connect is followed by the fixed `sleep(5)` and then the
next iteration; under a permanent deactivation no connect attempt ever
follows a read of the flag that returned false; and a while-check read
returning false makes the loop exit at once with no further action. -/
theorem C4_ws_loop_reconnect_policy (conn : Nat → ConnOutcome) :
    (∀ flag : Nat → Bool, (∀ j, flag j = true) →
      ∀ fuel i c, (wsLoop flag conn fuel i c).2 = false ∧
        countConnects (wsLoop flag conn fuel i c).1 = fuel) ∧
    (∀ flag : Nat → Bool, (∀ j, flag j = true) → ∀ fuel i c, conn c = .connectFail →
      (wsLoop flag conn (fuel + 1) i c).1 =
        WsAction.readActive true :: WsAction.connectAttempt :: WsAction.sleep5 ::
          (wsLoop flag conn fuel (i + 1) (c + 1)).1) ∧
    (∀ flag : Nat → Bool, Deactivating flag →
      ∀ fuel i c, noConnectAfterStop (wsLoop flag conn fuel i c).1 = true) ∧
    (∀ flag : Nat → Bool, ∀ fuel i c, flag i = false →
      wsLoop flag conn (fuel + 1) i c = ([WsAction.readActive false], true)) := by
  refine ⟨fun flag hT => wsLoop_active flag conn hT, ?_,
    fun flag hD => wsLoop_ncas flag conn hD, ?_⟩
  · intro flag hT fuel i c hcc
    rcases hw : wsLoop flag conn fuel (i + 1) (c + 1) with ⟨as, b⟩
    have hr : wsLoop flag conn (fuel + 1) i c =
        (WsAction.readActive true :: WsAction.connectAttempt :: WsAction.sleep5 :: as, b) := by
      simp [wsLoop, hT i, hcc, hw]
    rw [hr]
  · intro flag fuel i c hfi
    simp [wsLoop, hfi]

/-- C4 witness: the policy theorem applied to concrete flag schedules and
a concrete always-failing connection oracle, with the hypotheses
discharged by evaluation. -/
theorem C4_ws_loop_reconnect_policy_witness :
    ((wsLoop (fun _ => true) (fun _ => ConnOutcome.connectFail) 2 0 0).2 = false ∧
      countConnects (wsLoop (fun _ => true) (fun _ => ConnOutcome.connectFail) 2 0 0).1 = 2) ∧
    noConnectAfterStop
      (wsLoop (fun _ => false) (fun _ => ConnOutcome.connectFail) 3 0 0).1 = true ∧
    wsLoop (fun _ => false) (fun _ => ConnOutcome.connectFail) 3 0 0 =
      ([WsAction.readActive false], true) :=
  ⟨(C4_ws_loop_reconnect_policy (fun _ => ConnOutcome.connectFail)).1
      (fun _ => true) (fun _ => rfl) 2 0 0,
   (C4_ws_loop_reconnect_policy (fun _ => ConnOutcome.connectFail)).2.2.1
      (fun _ => false) (fun _ _ _ h => h) 3 0 0,
   (C4_ws_loop_reconnect_policy (fun _ => ConnOutcome.connectFail)).2.2.2
      (fun _ => false) 2 0 0 rfl⟩
